import Mathlib

/-!
Verification development for the finance-app transaction categorization core
(`src/main.py`).  The Python source is shallowly embedded below:

* Python strings stay `String`; the `str.strip`, `str.lower`, `str.split`,
  number parsing and comma-removal operations used by the source are
  re-implemented by structural recursion over the character list so that every
  definition evaluates by kernel reduction.
* The pandas DataFrame produced by `pd.read_csv` is a `RawTable` (trimmed
  header names plus string cells); the canonical frame after parsing is a list
  of `Row`/`Txn` records carrying the four canonical columns plus the
  passed-through extra columns.
* Python `float` amounts are embedded as exact decimals (`Dec`): the claims
  never do float arithmetic, only parse-success and record identity matter.
* `st.session_state` is the explicit `AppState`; writing `categories.json` is
  modeled by the `savedCategories` field; a raised exception that the source
  catches (or that aborts a Streamlit script run) is `Option.none`.
-/

namespace FinanceApp

/-! ### String primitives (Python `str` methods used by the source) -/

/-- Python `str.strip()` on the underlying character list. -/
def trimChars (l : List Char) : List Char :=
  ((l.dropWhile Char.isWhitespace).reverse.dropWhile Char.isWhitespace).reverse

/-- Python `str.strip()`. -/
def pyStrip (s : String) : String := String.mk (trimChars s.data)

/-- ASCII lowering of one character (the claims only exercise ASCII data). -/
def lowerChar (c : Char) : Char :=
  if 65 ≤ c.toNat ∧ c.toNat ≤ 90 then Char.ofNat (c.toNat + 32) else c

/-- Python `str.lower()`. -/
def pyLower (s : String) : String := String.mk (s.data.map lowerChar)

/-- Model of `details.lower().strip()` and `keyword.lower().strip()` from
`categorize_transactions` (src/main.py lines 36 and 39). -/
def lowerStrip (s : String) : String := pyStrip (pyLower s)

/-- Split a character list at every occurrence of `sep`. -/
def splitCharAux (sep : Char) : List Char → List (List Char)
  | [] => [[]]
  | c :: rest =>
    match splitCharAux sep rest with
    | [] => [[c]]
    | g :: gs => if c = sep then [] :: g :: gs else (c :: g) :: gs

/-- Split a string on a single-character separator. -/
def strSplitOn (sep : Char) (s : String) : List String :=
  (splitCharAux sep s.data).map String.mk

/-- Numeric value of a list of decimal digit characters. -/
def digitsToNat (ds : List Char) : Nat :=
  ds.foldl (fun n c => n * 10 + (c.toNat - 48)) 0

/-- Parse a non-empty all-digit string. -/
def strToNat? (s : String) : Option Nat :=
  if s.data ≠ [] ∧ s.data.all Char.isDigit then some (digitsToNat s.data) else none

/-- Model of `.replace({',' : ''}, regex=True)` from src/main.py line 52:
removes every comma. -/
def removeCommas (s : String) : String := String.mk (s.data.filter (fun c => c ≠ ','))

/-! ### Amounts

Python `float` values are embedded as exact decimals `num / 10 ^ exp`,
kept unnormalized so that every operation evaluates by kernel reduction.
The modeled `float(...)` grammar covers optional surrounding whitespace, an
optional sign and a plain decimal literal; scientific notation, underscores
and `inf`/`nan` (which the claims never exercise) are outside the model. -/

structure Dec where
  num : Int
  exp : Nat
deriving DecidableEq, Repr

/-- The rational value denoted by a `Dec`. -/
def Dec.toRat (d : Dec) : Rat := (d.num : Rat) / (10 : Rat) ^ d.exp

/-- Python `float(s)` on the decimal-literal grammar (src/main.py line 52/55
`astype(float)` applied to one cell). -/
def parseFloat (s : String) : Option Dec :=
  let cs := trimChars s.data
  let sgn : Int := match cs with
    | '-' :: _ => -1
    | _ => 1
  let cs := match cs with
    | '-' :: t => t
    | '+' :: t => t
    | _ => cs
  let ip := cs.takeWhile Char.isDigit
  let rest := cs.dropWhile Char.isDigit
  match rest with
  | [] => if ip = [] then none else some ⟨sgn * digitsToNat ip, 0⟩
  | '.' :: rest2 =>
    let fp := rest2.takeWhile Char.isDigit
    let rest3 := rest2.dropWhile Char.isDigit
    if rest3 ≠ [] then none
    else if ip = [] ∧ fp = [] then none
    else some ⟨sgn * (digitsToNat ip * 10 ^ fp.length + digitsToNat fp), fp.length⟩
  | _ => none

/-! ### Calendar dates -/

structure CalDate where
  year : Nat
  month : Nat
  day : Nat
deriving DecidableEq, Repr

def isLeapYear (y : Nat) : Bool :=
  y % 4 = 0 && (y % 100 ≠ 0 || y % 400 = 0)

def daysInMonth (y m : Nat) : Nat :=
  if m = 2 then (if isLeapYear y then 29 else 28)
  else if m = 4 ∨ m = 6 ∨ m = 9 ∨ m = 11 then 30
  else 31

/-- Validity of a day/month/year triple as a `datetime.date`
(year at least 1, real calendar day). -/
def validDMY (d m y : Nat) : Bool :=
  1 ≤ y && 1 ≤ m && m ≤ 12 && 1 ≤ d && d ≤ daysInMonth y m

/-- Model of `pd.to_datetime(value, format="%d/%m/%Y")` on one cell (src/main.py
line 60): day and month of one or two digits, year of up to four digits,
separated by `/`, validated as a calendar date. -/
def parseDMYSlash (s : String) : Option CalDate :=
  match strSplitOn '/' s with
  | [ds, ms, ys] =>
    match strToNat? ds, strToNat? ms, strToNat? ys with
    | some d, some m, some y =>
      if ds.data.length ≤ 2 && ms.data.length ≤ 2 && ys.data.length ≤ 4
          && validDMY d m y then some ⟨y, m, d⟩ else none
    | _, _, _ => none
  | _ => none

def monthAbbrevs : List String :=
  ["jan", "feb", "mar", "apr", "may", "jun", "jul", "aug", "sep", "oct", "nov", "dec"]

/-- Case-insensitive abbreviated month name, 1-based. -/
def monthFromAbbrev (s : String) : Option Nat :=
  (monthAbbrevs.findIdx? (fun m => m = pyLower s)).map (· + 1)

/-- Model of `pd.to_datetime(value, format="%d %b %Y")` on one cell (src/main.py
line 64): day, abbreviated month name, year, separated by single spaces. -/
def parseDMonY (s : String) : Option CalDate :=
  match strSplitOn ' ' s with
  | [ds, ms, ys] =>
    match strToNat? ds, monthFromAbbrev ms, strToNat? ys with
    | some d, some m, some y =>
      if ds.data.length ≤ 2 && ys.data.length ≤ 4 && validDMY d m y then
        some ⟨y, m, d⟩ else none
    | _, _, _ => none
  | _ => none

/-- The nested try/except chain of src/main.py lines 58-67: try
`%d/%m/%Y` on the whole column, then `%d %b %Y` on the whole column, then the
general `pd.to_datetime(..., dayfirst=True)` parse, which lives in pandas and
is therefore abstracted as the `fallback` argument.  A `none` from all three
is the uncaught exception of the third attempt. -/
def parseDateColumn (fallback : String → Option CalDate) (col : List String) :
    Option (List CalDate) :=
  match col.mapM parseDMYSlash with
  | some ds => some ds
  | none =>
    match col.mapM parseDMonY with
    | some ds => some ds
    | none => col.mapM fallback

/-! ### Records and application state -/

/-- One canonical record as parsed from the upload, before a `Category`
column exists.  `extra` carries the passed-through columns other than the
four canonical ones, in header order. -/
structure Row where
  Date : CalDate
  Details : String
  Amount : Dec
  DebitCredit : String
  extra : List (String × String)
deriving DecidableEq, Repr

/-- A categorized record: a `Row` plus the `Category` column. -/
structure Txn extends Row where
  Category : String
deriving DecidableEq, Repr

/-- The persisted/in-session category mapping: insertion-ordered association
list of category name to keyword sequence, exactly a Python `dict`. -/
abbrev Store := List (String × List String)

/-- Reassigning `dict[key] = v`: every pair whose key matches is rewritten
(keys are unique in every state the source builds). -/
def updateAssoc (m : Store) (k : String) (v : List String) : Store :=
  m.map (fun p => if p.1 = k then (k, v) else p)

/-- The relevant `st.session_state` fields plus the contents of
`categories.json` (`savedCategories`); an absent file is identified with the
default content it falls back to. -/
structure AppState where
  categories : Store
  savedCategories : Store
  categorized_transactions : Option (List Txn)
  debits_df : List Txn
deriving DecidableEq, Repr

/-- Process start with no `categories.json` (src/main.py lines 12-23). -/
def initState : AppState :=
  { categories := [("Uncategorized", [])]
    savedCategories := [("Uncategorized", [])]
    categorized_transactions := none
    debits_df := [] }

/-- Function `add_keyword_to_category` (src/main.py lines 87-94).  `none` is the
`KeyError` raised by `st.session_state.categories[category]` when the
category is unknown; Python's short-circuit `and` skips that subscript when
the stripped keyword is empty. -/
def add_keyword_to_category (st : AppState) (category keyword : String) :
    Option (AppState × Bool) :=
  let kw := pyStrip keyword
  if kw = "" then some (st, false)
  else
    match st.categories.lookup category with
    | none => none
    | some kws =>
      if kw ∈ kws then some (st, false)
      else
        let cats := updateAssoc st.categories category (kws ++ [kw])
        some ({ st with categories := cats, savedCategories := cats }, true)

/-- The category-creation block inline in `main` (src/main.py lines
113-120): guarded by the truthiness of the raw `new_category` string (no
trimming), insertion appends the new key, then `save_categories()` runs.
The boolean reports whether an insertion happened. -/
def createCategory (st : AppState) (name : String) : AppState × Bool :=
  if name ≠ "" then
    if name ∉ st.categories.map Prod.fst then
      let cats := st.categories ++ [(name, [])]
      ({ st with categories := cats, savedCategories := cats }, true)
    else (st, false)
  else (st, false)

/-! ### Classifier -/

/-- Function `categorize_transactions` (src/main.py lines 29-42): initialize every
`Category` to `"Uncategorized"`, then for each category other than
`"Uncategorized"` with a non-empty keyword list, in dict insertion order,
overwrite the `Category` of every row whose lowered-stripped `Details` is
among the lowered-stripped keywords. -/
def categorize_transactions (cats : Store) (df : List Row) : List Txn :=
  let df0 := df.map (fun r => ({ toRow := r, Category := "Uncategorized" } : Txn))
  cats.foldl
    (fun acc p =>
      if p.1 = "Uncategorized" ∨ p.2 = [] then acc
      else
        let lowered := p.2.map lowerStrip
        acc.map (fun t =>
          if lowerStrip t.Details ∈ lowered then { t with Category := p.1 } else t))
    df0

/-- The snapshot branch of `load_transactions` (src/main.py lines 70-78):
`df.merge(snapshot[["Details","Category"]], on="Details", how="left")`
followed by `fillna("Uncategorized")`.  A pandas left merge keeps the left
order, emits one output row per matching snapshot row (so a `Details` value
occurring several times in the snapshot multiplies the record), matches on
exact string equality, and leaves the category of unmatched rows missing,
which `fillna` then sets to `"Uncategorized"`. -/
def reconcile (df : List Row) (snap : List Txn) : List Txn :=
  df.flatMap (fun r =>
    match snap.filter (fun s => s.Details = r.Details) with
    | [] => [{ toRow := r, Category := "Uncategorized" }]
    | ms => ms.map (fun s => ({ toRow := r, Category := s.Category } : Txn)))

/-! ### RecordParser / load_transactions -/

/-- The raw table delivered by `pd.read_csv`: header names and string
cells. -/
structure RawTable where
  headers : List String
  rows : List (List String)
deriving DecidableEq, Repr

/-- Position of a column name among the headers. -/
def colIndex? : List String → String → Option Nat
  | [], _ => none
  | h :: rest, name =>
    if h = name then some 0 else (colIndex? rest name).map (· + 1)

/-- Column access `df[name]`: `none` is the `KeyError` on a missing column. -/
def RawTable.col? (t : RawTable) (name : String) : Option (List String) :=
  (colIndex? t.headers name).map (fun i => t.rows.map (fun r => r.getD i ""))

def coreColumns : List String := ["Date", "Details", "Amount", "Debit/Credit"]

/-- The non-canonical columns of each row, passed through unchanged. -/
def extraColumnsOf (t : RawTable) : List (List (String × String)) :=
  t.rows.map (fun r =>
    (t.headers.enum.filter (fun p => p.2 ∉ coreColumns)).map
      (fun p => (p.2, r.getD p.1 "")))

/-- Line `if category == "Uncategorized" or not keywords: continue` makes a
category pass run iff some category is active in this sense. -/
def hasActiveCategory (cats : Store) : Bool :=
  cats.any (fun p => p.1 != "Uncategorized" && !p.2.isEmpty)

/-- Function `load_transactions` (src/main.py lines 44-85).  The whole body is inside
`try/except`, so any raised error yields `none`.  Column accesses happen
exactly where the source performs them: `Amount` and `Date` are always
touched; `Details` is touched by `merge` in snapshot mode, and in keyword
mode only when some category pass actually iterates over at least one row
(`row["Details"]` inside the loop); `Debit/Credit` is never touched here. -/
def load_transactions (fallback : String → Option CalDate) (cats : Store)
    (snapshot : Option (List Txn)) (t0 : RawTable) : Option (List Txn) :=
  let t : RawTable := ⟨t0.headers.map pyStrip, t0.rows⟩
  match t.col? "Amount" with
  | none => none
  | some amountRaw =>
    match amountRaw.mapM (fun s => parseFloat (removeCommas s)) with
    | none => none
    | some amounts =>
      match t.col? "Date" with
      | none => none
      | some dateRaw =>
        match parseDateColumn fallback dateRaw with
        | none => none
        | some dates =>
          let detailsCol := t.col? "Details"
          let details := detailsCol.getD (t.rows.map (fun _ => ""))
          let dcs := (t.col? "Debit/Credit").getD (t.rows.map (fun _ => ""))
          let rows :=
            ((((dates.zip details).zip amounts).zip dcs).zip (extraColumnsOf t)).map
              (fun q => ({ Date := q.1.1.1.1, Details := q.1.1.1.2,
                           Amount := q.1.1.2, DebitCredit := q.1.2,
                           extra := q.2 } : Row))
          match snapshot with
          | some snap =>
            if detailsCol.isSome then some (reconcile rows snap) else none
          | none =>
            if hasActiveCategory cats && !t.rows.isEmpty then
              if detailsCol.isSome then some (categorize_transactions cats rows)
              else none
            else some (categorize_transactions cats rows)

/-! ### The upload and edit flows of `main` -/

/-- The upload handling of `main` (src/main.py lines 102-109): on a failed
load nothing is stored; on success `debits_df` becomes the `Debit` rows.
`df[df["Debit/Credit"] == "Debit"]` raises when the column is absent, which
aborts the script run before anything is stored, so the session is also
unchanged in that case. -/
def uploadStep (fallback : String → Option CalDate) (st : AppState)
    (t : RawTable) : AppState :=
  match load_transactions fallback st.categories st.categorized_transactions t with
  | none => st
  | some df =>
    if "Debit/Credit" ∈ t.headers.map pyStrip then
      { st with debits_df := df.filter (fun r => r.DebitCredit = "Debit") }
    else st

/-- Assignment `st.session_state.debits_df.at[idx, "Category"] = new_category`
(src/main.py line 209). -/
def setTxnCategory (st : AppState) (idx : Nat) (newCat : String) : AppState :=
  { st with debits_df :=
      match st.debits_df[idx]? with
      | some t => st.debits_df.set idx { t with Category := newCat }
      | none => st.debits_df }

/-- The body of one Apply-Changes iteration (src/main.py lines 202-211):
compare the edited category against the one stored at this index, and on a
change update the stored record and best-effort learn the raw `Details` as a
keyword.  A `false` flag records that `add_keyword_to_category` raised,
which aborts the rest of the script run while keeping the session mutations
already made. -/
def applyOneEdit (st : AppState) (idx : Nat) (row : Txn) (newCat : String) :
    AppState × Bool :=
  if newCat ≠ ((st.debits_df[idx]?).map Txn.Category).getD "" then
    match add_keyword_to_category (setTxnCategory st idx newCat) newCat row.Details with
    | none => (setTxnCategory st idx newCat, false)
    | some (st2, _) => (st2, true)
  else (st, true)

/-- One iteration of the Apply-Changes loop over
`(idx, (edited_df row, edited category))`; once an iteration has raised, the
remaining iterations do not run. -/
def applyChangesStep (acc : AppState × Bool) (p : Nat × (Txn × String)) :
    AppState × Bool :=
  match acc with
  | (st, false) => (st, false)
  | (st, true) => applyOneEdit st p.1 p.2.1 p.2.2

/-- The Apply-Changes handler (src/main.py lines 199-216): walk the edited
table against the stored `debits_df`; if the loop completes, save once more
and replace the snapshot with the updated `debits_df`.  The edited table is
the stored one with the user's `Category` choices (`edited`). -/
def applyChanges (st0 : AppState) (edited : List String) : AppState :=
  match ((st0.debits_df.zip edited).enum).foldl applyChangesStep (st0, true) with
  | (st, true) =>
    let st1 := { st with savedCategories := st.categories }
    { st1 with categorized_transactions := some st1.debits_df }
  | (st, false) => st

/-- The states the session can reach through the operations of the source:
process start, category creation, keyword addition, an upload, an
Apply-Changes batch, and a restart that reloads `categories.json`. -/
inductive Reach : AppState → Prop
  | start : Reach initState
  | create (st : AppState) (name : String) : Reach st → Reach (createCategory st name).1
  | addkw (st st2 : AppState) (c k : String) (b : Bool) : Reach st →
      add_keyword_to_category st c k = some (st2, b) → Reach st2
  | upload (st : AppState) (fallback : String → Option CalDate) (t : RawTable) :
      Reach st → Reach (uploadStep fallback st t)
  | edits (st : AppState) (edited : List String) : Reach st → Reach (applyChanges st edited)
  | reload (st : AppState) : Reach st →
      Reach { categories := st.savedCategories, savedCategories := st.savedCategories,
              categorized_transactions := none, debits_df := [] }

/-! ### Declarative characterizations used to state the claims -/

/-- A category pass applies to a record: the pair is not `"Uncategorized"`,
has keywords, and one of its normalized keywords equals the normalized
`Details`. -/
def matchesPass (details : String) (p : String × List String) : Prop :=
  p.1 ≠ "Uncategorized" ∧ p.2 ≠ [] ∧ lowerStrip details ∈ p.2.map lowerStrip

instance (d : String) (p : String × List String) : Decidable (matchesPass d p) := by
  unfold matchesPass
  infer_instance

/-- The categories whose keyword pass matches a given `Details` value, in
iteration order. -/
def matchingCategories (cats : Store) (details : String) : List String :=
  (cats.filter (fun p => matchesPass details p)).map Prod.fst

/-- The category keyword matching assigns: the last matching category in
iteration order, or `"Uncategorized"`. -/
def keywordCategory (cats : Store) (details : String) : String :=
  (matchingCategories cats details).getLastD "Uncategorized"

/-- The snapshot category of an exactly-matching `Details`, defaulting to
`"Uncategorized"`. -/
def snapshotCategory (snap : List Txn) (details : String) : String :=
  ((snap.find? (fun s => s.Details = details)).map Txn.Category).getD "Uncategorized"

/-- Reconciliation as the specification words it: build a relation from the
snapshot keyed by NORMALIZED `Details` with the most recent occurrence
winning, look every new record up by its normalized `Details`, defaulting to
`"Uncategorized"`, one output row per input row.  (Spec §4.3, snapshot
reconciliation mode; compare with `reconcile`, which is what the source
does.) -/
def specReconcile (df : List Row) (snap : List Txn) : List Txn :=
  df.map (fun r =>
    { toRow := r
      Category :=
        (((snap.filter (fun s => lowerStrip s.Details = lowerStrip r.Details)).getLast?).map
            Txn.Category).getD "Uncategorized" })

/-- The CategoryStore part of the spec's §3 invariant: `"Uncategorized"` is
a key of the live mapping and of the persisted one. -/
def storeInvariant (st : AppState) : Prop :=
  "Uncategorized" ∈ st.categories.map Prod.fst ∧
  "Uncategorized" ∈ st.savedCategories.map Prod.fst

/-! ### Concrete example data used by counterexamples and witnesses -/

/-- A debit record with the given `Details`, as the parser would build it
from the example upload. -/
def exRow (d : String) : Row :=
  { Date := ⟨2024, 1, 1⟩, Details := d, Amount := ⟨5, 0⟩,
    DebitCredit := "Debit", extra := [] }

/-- An `exRow` with an assigned category. -/
def exTxn (d c : String) : Txn := { toRow := exRow d, Category := c }

/-- A stand-in for the pandas general day-first parser that accepts
nothing; the concrete examples never reach it. -/
def noFallback : String → Option CalDate := fun _ => none

/-- A well-formed one-row upload. -/
def exTable : RawTable :=
  ⟨["Date", "Details", "Amount", "Debit/Credit"],
   [["01/01/2024", "COFFEE SHOP", "5", "Debit"]]⟩

/-- The same upload without its `Details` column. -/
def exTableNoDetails : RawTable :=
  ⟨["Date", "Amount", "Debit/Credit"], [["01/01/2024", "5", "Debit"]]⟩

/-- A session whose store has two empty categories and one holding the
keyword `"coffee"`. -/
def exStateB : AppState :=
  { categories := [("Uncategorized", []), ("A", []), ("B", ["coffee"])]
    savedCategories := [("Uncategorized", []), ("A", []), ("B", ["coffee"])]
    categorized_transactions := none
    debits_df := [] }

/-- State `exStateB` after `add_keyword_to_category exStateB "A" "coffee"`. -/
def exStateB2 : AppState :=
  { categories := [("Uncategorized", []), ("A", ["coffee"]), ("B", ["coffee"])]
    savedCategories := [("Uncategorized", []), ("A", ["coffee"]), ("B", ["coffee"])]
    categorized_transactions := none
    debits_df := [] }

/-- The session after creating `"Dining"` and then adding the keyword
`"coffee"` to it. -/
def exStateD2 : AppState :=
  { categories := [("Uncategorized", []), ("Dining", ["coffee"])]
    savedCategories := [("Uncategorized", []), ("Dining", ["coffee"])]
    categorized_transactions := none
    debits_df := [] }

/-- State chain for the keyword-learning counterexample: create a category,
upload, recategorize the row to it, then recategorize the row back to
`"Uncategorized"`. -/
def c8s1 : AppState := (createCategory initState "Dining").1

def c8s2 : AppState := uploadStep noFallback c8s1 exTable

def c8s3 : AppState := applyChanges c8s2 ["Dining"]

def c8s4 : AppState := applyChanges c8s3 ["Uncategorized"]

/-! ### Keyword matching, pointwise -/

/-- One category pass of `categorize_transactions` acting on one record. -/
def applyCatStep (t : Txn) (p : String × List String) : Txn :=
  if p.1 = "Uncategorized" ∨ p.2 = [] then t
  else if lowerStrip t.Details ∈ p.2.map lowerStrip then { t with Category := p.1 } else t

/-- All category passes acting on one record. -/
def applyCats (cats : Store) (t : Txn) : Txn := cats.foldl applyCatStep t

theorem listPass_eq_map (p : String × List String) (acc : List Txn) :
    (if p.1 = "Uncategorized" ∨ p.2 = [] then acc
     else acc.map (fun t =>
       if lowerStrip t.Details ∈ p.2.map lowerStrip then { t with Category := p.1 } else t))
    = acc.map (fun t => applyCatStep t p) := by
  by_cases h : p.1 = "Uncategorized" ∨ p.2 = []
  · simp [applyCatStep, h]
  · simp [applyCatStep, h]

theorem foldPasses_eq_map (cats : Store) (acc : List Txn) :
    cats.foldl
      (fun acc p =>
        if p.1 = "Uncategorized" ∨ p.2 = [] then acc
        else
          let lowered := p.2.map lowerStrip
          acc.map (fun t =>
            if lowerStrip t.Details ∈ lowered then { t with Category := p.1 } else t))
      acc
    = acc.map (applyCats cats) := by
  induction cats generalizing acc with
  | nil => exact (List.map_id acc).symm
  | cons p cats ih =>
    rw [List.foldl_cons, listPass_eq_map p acc, ih, List.map_map]
    rfl

theorem mk_ext (a b : Txn) (h1 : a.toRow = b.toRow) (h2 : a.Category = b.Category) :
    a = b := by
  cases a
  cases b
  cases h1
  cases h2
  rfl

theorem applyCatStep_toRow (t : Txn) (p : String × List String) :
    (applyCatStep t p).toRow = t.toRow := by
  unfold applyCatStep
  split
  · rfl
  · split
    · rfl
    · rfl

theorem applyCatStep_Details (t : Txn) (p : String × List String) :
    (applyCatStep t p).Details = t.Details :=
  congrArg Row.Details (applyCatStep_toRow t p)

theorem applyCatStep_Category_pos (t : Txn) (p : String × List String)
    (h : matchesPass t.Details p) : (applyCatStep t p).Category = p.1 := by
  obtain ⟨h1, h2, h3⟩ := h
  unfold applyCatStep
  rw [if_neg (by tauto), if_pos h3]

theorem applyCatStep_Category_neg (t : Txn) (p : String × List String)
    (h : ¬ matchesPass t.Details p) : (applyCatStep t p).Category = t.Category := by
  unfold applyCatStep
  by_cases hskip : p.1 = "Uncategorized" ∨ p.2 = []
  · rw [if_pos hskip]
  · rw [if_neg hskip]
    have hmem : lowerStrip t.Details ∉ p.2.map lowerStrip := by
      intro hmem
      push_neg at hskip
      exact h ⟨hskip.1, hskip.2, hmem⟩
    rw [if_neg hmem]

theorem matchingCategories_cons_pos (p : String × List String) (cats : Store)
    (d : String) (h : matchesPass d p) :
    matchingCategories (p :: cats) d = p.1 :: matchingCategories cats d := by
  unfold matchingCategories
  rw [List.filter_cons, if_pos (by simpa using h)]
  rfl

theorem matchingCategories_cons_neg (p : String × List String) (cats : Store)
    (d : String) (h : ¬ matchesPass d p) :
    matchingCategories (p :: cats) d = matchingCategories cats d := by
  unfold matchingCategories
  rw [List.filter_cons, if_neg (by simpa using h)]

theorem applyCats_toRow (cats : Store) (t : Txn) :
    (applyCats cats t).toRow = t.toRow := by
  induction cats generalizing t with
  | nil => rfl
  | cons p cats ih =>
    have hstep : applyCats (p :: cats) t = applyCats cats (applyCatStep t p) := rfl
    rw [hstep, ih, applyCatStep_toRow]

theorem applyCats_Category (cats : Store) (t : Txn) :
    (applyCats cats t).Category =
      (matchingCategories cats t.Details).getLastD t.Category := by
  induction cats generalizing t with
  | nil => rfl
  | cons p cats ih =>
    have hstep : applyCats (p :: cats) t = applyCats cats (applyCatStep t p) := rfl
    rw [hstep, ih, applyCatStep_Details]
    by_cases h : matchesPass t.Details p
    · rw [applyCatStep_Category_pos t p h, matchingCategories_cons_pos p cats _ h,
        List.getLastD_cons]
    · rw [applyCatStep_Category_neg t p h, matchingCategories_cons_neg p cats _ h]

theorem applyCats_eq (cats : Store) (t : Txn) :
    applyCats cats t =
      { toRow := t.toRow
        Category := (matchingCategories cats t.Details).getLastD t.Category } := by
  apply mk_ext
  · rw [applyCats_toRow]
  · rw [applyCats_Category]

/-- Function `categorize_transactions` computes, record by record, the last matching
category in iteration order, defaulting to `"Uncategorized"`, and keeps
everything else of the record. -/
theorem categorize_transactions_eq (cats : Store) (df : List Row) :
    categorize_transactions cats df =
      df.map (fun r => ({ toRow := r, Category := keywordCategory cats r.Details } : Txn)) := by
  unfold categorize_transactions keywordCategory
  rw [foldPasses_eq_map, List.map_map]
  apply List.map_congr_left
  intro r _
  exact applyCats_eq cats { toRow := r, Category := "Uncategorized" }

/-- C3: In keyword matching mode, each record is assigned the last category
in deterministic iteration order whose normalized keyword set contains the
record's normalized `Details`; records matching no keyword keep
`"Uncategorized"`.  (`keywordCategory` is exactly that assignment.) -/
theorem C3_keyword_matching (cats : Store) (df : List Row) :
    categorize_transactions cats df =
      df.map (fun r => ({ toRow := r, Category := keywordCategory cats r.Details } : Txn)) :=
  categorize_transactions_eq cats df

/-- C10: keyword-mode classification is a pure relabelling of `Category`:
record count and order are preserved and every other field (`Date`,
`Details`, `Amount`, `Debit/Credit` and the extra columns) is unchanged. -/
theorem C10_frame (cats : Store) (df : List Row) :
    (categorize_transactions cats df).length = df.length ∧
    (categorize_transactions cats df).map Txn.toRow = df := by
  rw [categorize_transactions_eq]
  refine ⟨by simp, ?_⟩
  rw [List.map_map]
  have h : (Txn.toRow ∘ fun r =>
      ({ toRow := r, Category := keywordCategory cats r.Details } : Txn)) = id := rfl
  rw [h, List.map_id]

/-! ### CategoryStore operations: C2 and C6 -/

theorem lookup_updateAssoc_self (m : Store) (c : String) (w v : List String)
    (h : m.lookup c = some w) : (updateAssoc m c v).lookup c = some v := by
  induction m with
  | nil => simp at h
  | cons p rest ih =>
    obtain ⟨k1, v1⟩ := p
    show List.lookup c ((if k1 = c then (c, v) else (k1, v1)) :: updateAssoc rest c v) = some v
    by_cases hk : k1 = c
    · rw [if_pos hk]
      simp [List.lookup]
    · rw [if_neg hk]
      have hbe : (c == k1) = false := by
        rw [beq_eq_false_iff_ne]
        exact fun hcc => hk hcc.symm
      have h2 : List.lookup c rest = some w := by
        simp only [List.lookup, hbe] at h
        exact h
      simp only [List.lookup, hbe]
      exact ih h2

/-- C2 (amended): `addKeyword` trims the keyword; it returns `false` without
raising when the trimmed keyword is empty, or when the category is present
and already holds the trimmed keyword (case-sensitive exact comparison); it
raises `KeyError` (it does NOT return `false`) when the trimmed keyword is
non-empty and the category is unknown; on success it appends the trimmed
keyword, saves, and returns `true`; and a second call with an identically
trimming keyword returns `false` and leaves the whole state, hence the
keyword sequence length, unchanged. -/
theorem C2_addKeyword (st : AppState) (c k : String) :
    (pyStrip k = "" → add_keyword_to_category st c k = some (st, false)) ∧
    (pyStrip k ≠ "" → st.categories.lookup c = none →
      add_keyword_to_category st c k = none) ∧
    (∀ kws, pyStrip k ≠ "" → st.categories.lookup c = some kws → pyStrip k ∈ kws →
      add_keyword_to_category st c k = some (st, false)) ∧
    (∀ kws, pyStrip k ≠ "" → st.categories.lookup c = some kws → pyStrip k ∉ kws →
      add_keyword_to_category st c k =
        some ({ st with
                categories := updateAssoc st.categories c (kws ++ [pyStrip k])
                savedCategories := updateAssoc st.categories c (kws ++ [pyStrip k]) },
              true)) ∧
    (∀ st1 b1, add_keyword_to_category st c k = some (st1, b1) →
      add_keyword_to_category st1 c k = some (st1, false)) := by
  refine ⟨?_, ?_, ?_, ?_, ?_⟩
  · intro h
    simp [add_keyword_to_category, h]
  · intro h1 h2
    simp [add_keyword_to_category, h1, h2]
  · intro kws h1 h2 h3
    simp [add_keyword_to_category, h1, h2, h3]
  · intro kws h1 h2 h3
    simp [add_keyword_to_category, h1, h2, h3]
  · intro st1 b1 hfirst
    by_cases h1 : pyStrip k = ""
    · simp [add_keyword_to_category, h1]
    · match h2 : st.categories.lookup c with
      | none => simp [add_keyword_to_category, h1, h2] at hfirst
      | some kws =>
        by_cases h3 : pyStrip k ∈ kws
        · simp [add_keyword_to_category, h1, h2, h3] at hfirst ⊢
          rw [← hfirst.1]
          simp [h2, h3]
        · simp [add_keyword_to_category, h1, h2, h3] at hfirst
          have hlook : st1.categories.lookup c = some (kws ++ [pyStrip k]) := by
            rw [← hfirst.1]
            exact lookup_updateAssoc_self st.categories c kws _ h2
          simp [add_keyword_to_category, h1, hlook]

/-- C2 counterexample: with only the default store, adding a non-empty
keyword to the unknown category `"Groceries"` raises `KeyError`
(modeled as `none`) instead of returning `false`. -/
theorem C2_counterexample :
    add_keyword_to_category initState "Groceries" "coffee" = none := by decide

theorem C2_addKeyword_witness :
    add_keyword_to_category initState "Uncategorized" " coffee " =
      some ({ initState with
              categories := [("Uncategorized", ["coffee"])]
              savedCategories := [("Uncategorized", ["coffee"])] }, true) :=
  (C2_addKeyword initState "Uncategorized" " coffee ").2.2.2.1 []
    (by decide) (by decide) (by decide)

/-- C6 (amended): the category-creation block inserts `name → []` and saves
when `name` is non-empty and absent; it is a no-op when `name` is already
present or exactly the empty string; a whitespace-only `name` is NOT
rejected (no trimming happens) and is inserted as-is. -/
theorem C6_createCategory (st : AppState) (name : String) :
    (name = "" → createCategory st name = (st, false)) ∧
    (name ∈ st.categories.map Prod.fst → createCategory st name = (st, false)) ∧
    (name ≠ "" → name ∉ st.categories.map Prod.fst →
      createCategory st name =
        ({ st with
           categories := st.categories ++ [(name, [])]
           savedCategories := st.categories ++ [(name, [])] }, true)) := by
  refine ⟨?_, ?_, ?_⟩
  · intro h
    simp [createCategory, h]
  · intro h
    by_cases h0 : name = ""
    · simp [createCategory, h0]
    · simp [createCategory, h0, h]
  · intro h0 h
    simp [createCategory, h0, h]

/-- C6 counterexample: the whitespace-only name `" "` is truthy in Python
and absent from the default store, so the block inserts it (and saves),
instead of rejecting it as empty-after-trimming. -/
theorem C6_counterexample :
    createCategory initState " " =
      ({ initState with
         categories := [("Uncategorized", []), (" ", [])]
         savedCategories := [("Uncategorized", []), (" ", [])] }, true) := by decide

theorem C6_createCategory_witness :
    createCategory initState "Dining" =
      ({ initState with
         categories := [("Uncategorized", []), ("Dining", [])]
         savedCategories := [("Uncategorized", []), ("Dining", [])] }, true) :=
  (C6_createCategory initState "Dining").2.2 (by decide) (by decide)

/-! ### Snapshot reconciliation: C1 and C4 -/

theorem find?_of_filter_nil {α : Type} (l : List α) (p : α → Bool)
    (h : l.filter p = []) : l.find? p = none := by
  rw [List.find?_eq_none]
  intro x hx
  exact (List.filter_eq_nil_iff.mp h) x hx

theorem find?_of_filter_singleton {α : Type} (l : List α) (p : α → Bool) (s : α)
    (h : l.filter p = [s]) : l.find? p = some s := by
  induction l with
  | nil => simp at h
  | cons a rest ih =>
    by_cases hp : p a
    · rw [List.filter_cons_of_pos hp] at h
      rw [List.find?_cons_of_pos rest hp]
      exact congrArg some (List.cons_eq_cons.mp h).1
    · rw [List.filter_cons_of_neg hp] at h
      rw [List.find?_cons_of_neg rest hp]
      exact ih h

/-- Under at-most-one snapshot match per record, the pandas left merge is
the per-record exact-`Details` lookup with default `"Uncategorized"`. -/
theorem reconcile_unique (df : List Row) (snap : List Txn)
    (h : ∀ r ∈ df, (snap.filter (fun s => s.Details = r.Details)).length ≤ 1) :
    reconcile df snap =
      df.map (fun r => ({ toRow := r, Category := snapshotCategory snap r.Details } : Txn)) := by
  induction df with
  | nil => rfl
  | cons r df ih =>
    have hr := h r (List.mem_cons_self r df)
    have hrest := fun x hx => h x (List.mem_cons_of_mem r hx)
    have hhead :
        (match snap.filter (fun s => s.Details = r.Details) with
          | [] => [({ toRow := r, Category := "Uncategorized" } : Txn)]
          | ms => ms.map (fun s => ({ toRow := r, Category := s.Category } : Txn)))
        = [({ toRow := r, Category := snapshotCategory snap r.Details } : Txn)] := by
      rcases hfil : snap.filter (fun s => s.Details = r.Details) with _ | ⟨s, rest⟩
      · have hcat : snapshotCategory snap r.Details = "Uncategorized" := by
          unfold snapshotCategory
          rw [find?_of_filter_nil snap _ hfil]
          rfl
        rw [hfil, hcat]
      · rcases rest with _ | ⟨s2, rest2⟩
        · have hcat : snapshotCategory snap r.Details = s.Category := by
            unfold snapshotCategory
            rw [find?_of_filter_singleton snap _ s hfil]
            rfl
          rw [hfil, hcat]
          rfl
        · rw [hfil] at hr
          simp at hr
    calc reconcile (r :: df) snap
        = (match snap.filter (fun s => s.Details = r.Details) with
            | [] => [({ toRow := r, Category := "Uncategorized" } : Txn)]
            | ms => ms.map (fun s => ({ toRow := r, Category := s.Category } : Txn)))
          ++ reconcile df snap := by
          simp [reconcile]
      _ = _ := by
          rw [hhead, ih hrest]
          rfl

/-- C1 (amended): in snapshot reconciliation mode the join key is the RAW
(exact, case- and whitespace-sensitive) `Details`; when every record has at
most one matching snapshot row, each record receives the category of its
exactly-matching snapshot row and `"Uncategorized"` otherwise, with the new
dataset as the left side; and the keyword ruleset plays no role at all in
snapshot mode. -/
theorem C1_exact_join (df : List Row) (snap : List Txn)
    (h : ∀ r ∈ df, (snap.filter (fun s => s.Details = r.Details)).length ≤ 1) :
    reconcile df snap =
      df.map (fun r => ({ toRow := r, Category := snapshotCategory snap r.Details } : Txn)) ∧
    (∀ fallback cats cats2 s t,
      load_transactions fallback cats (some s) t = load_transactions fallback cats2 (some s) t) :=
  ⟨reconcile_unique df snap h, fun _ _ _ _ _ => rfl⟩

/-- C1 counterexample: the claim's normalized lookup (`specReconcile`, the
spec's own relation) assigns `"Dining"` to a record whose `Details` differs
from the snapshot's only by casing, but the code's exact-equality merge
leaves it `"Uncategorized"`. -/
theorem C1_counterexample :
    (reconcile [exRow "Coffee Shop"] [exTxn "coffee shop" "Dining"]).map Txn.Category
      = ["Uncategorized"] ∧
    (specReconcile [exRow "Coffee Shop"] [exTxn "coffee shop" "Dining"]).map Txn.Category
      = ["Dining"] := by
  exact ⟨by decide, by decide⟩

theorem C1_exact_join_witness :
    reconcile [exRow "COFFEE SHOP"] [exTxn "COFFEE SHOP" "Dining"]
      = [exTxn "COFFEE SHOP" "Dining"] :=
  (C1_exact_join [exRow "COFFEE SHOP"] [exTxn "COFFEE SHOP" "Dining"] (by decide)).1

theorem filter_self_of_nodup (ds : List Txn)
    (h : (ds.map (fun t => t.Details)).Nodup) :
    ∀ t ∈ ds, ds.filter (fun s => s.Details = t.Details) = [t] := by
  induction ds with
  | nil => intro t ht; simp at ht
  | cons a rest ih =>
    rw [List.map_cons, List.nodup_cons] at h
    intro t ht
    rcases List.mem_cons.mp ht with rfl | htr
    · rw [List.filter_cons_of_pos (by simp)]
      have : rest.filter (fun s => s.Details = t.Details) = [] := by
        rw [List.filter_eq_nil_iff]
        intro s hs hsd
        exact h.1 (by
          rw [← (by simpa using hsd : s.Details = t.Details)]
          exact List.mem_map_of_mem (fun t => t.Details) hs)
      rw [this]
    · have hne : a.Details ≠ t.Details := by
        intro he
        exact h.1 (by
          rw [he]
          exact List.mem_map_of_mem (fun t => t.Details) htr)
      rw [List.filter_cons_of_neg (by simpa using hne)]
      exact ih h.2 t htr

/-- Reconciliation against a snapshot that matches each record exactly once
at its own row reproduces the dataset. -/
theorem reconcile_self (ds : List Txn) (snap : List Txn)
    (h : ∀ t ∈ ds, snap.filter (fun s => s.Details = t.Details) = [t]) :
    reconcile (ds.map Txn.toRow) snap = ds := by
  induction ds with
  | nil => rfl
  | cons t ds ih =>
    have hh := h t (List.mem_cons_self t ds)
    have hrest := fun x hx => h x (List.mem_cons_of_mem t hx)
    show (match snap.filter (fun s => s.Details = t.Details) with
        | [] => [({ toRow := t.toRow, Category := "Uncategorized" } : Txn)]
        | ms => ms.map (fun s => ({ toRow := t.toRow, Category := s.Category } : Txn)))
      ++ reconcile (ds.map Txn.toRow) snap = t :: ds
    rw [hh, ih hrest]
    rfl

/-- C4 (amended): reconciling a categorized dataset against itself is the
identity PROVIDED its `Details` values are pairwise distinct; the merge then
matches every record exactly at its own snapshot row. -/
theorem C4_self_reconcile_fixpoint (ds : List Txn)
    (h : (ds.map (fun t => t.Details)).Nodup) :
    reconcile (ds.map Txn.toRow) ds = ds :=
  reconcile_self ds ds (filter_self_of_nodup ds h)

/-- C4 counterexample: a dataset in which two records share a `Details`
value is NOT a fixed point of self-reconciliation: the many-to-many merge
emits four rows for two records. -/
theorem C4_counterexample :
    reconcile ([exTxn "A" "Cat1", exTxn "A" "Cat2"].map Txn.toRow)
        [exTxn "A" "Cat1", exTxn "A" "Cat2"]
      ≠ [exTxn "A" "Cat1", exTxn "A" "Cat2"] := by decide

theorem C4_self_reconcile_fixpoint_witness :
    reconcile ([exTxn "A" "Cat1", exTxn "B" "Cat2"].map Txn.toRow)
        [exTxn "A" "Cat1", exTxn "B" "Cat2"]
      = [exTxn "A" "Cat1", exTxn "B" "Cat2"] :=
  C4_self_reconcile_fixpoint [exTxn "A" "Cat1", exTxn "B" "Cat2"] (by decide)

/-! ### Learned keywords and classification: C5 -/

theorem lookup_mem (m : Store) (c : String) (w : List String)
    (h : m.lookup c = some w) : (c, w) ∈ m := by
  induction m with
  | nil => simp at h
  | cons p rest ih =>
    obtain ⟨k1, v1⟩ := p
    by_cases hk : c = k1
    · subst hk
      have hv : v1 = w := by simpa [List.lookup] using h
      rw [← hv]
      exact List.mem_cons_self _ _
    · have hbe : (c == k1) = false := by
        rw [beq_eq_false_iff_ne]
        exact hk
      have h2 : rest.lookup c = some w := by simpa [List.lookup, hbe] using h
      exact List.mem_cons_of_mem _ (ih h2)

theorem mem_updateAssoc (m : Store) (c : String) (w v : List String)
    (h : (c, w) ∈ m) : (c, v) ∈ updateAssoc m c v := by
  unfold updateAssoc
  have h2 := List.mem_map_of_mem (fun p => if p.1 = c then (c, v) else p) h
  simpa using h2

theorem getLastD_of_all_eq (l : List String) (c d : String) (hne : l ≠ [])
    (h : ∀ x ∈ l, x = c) : l.getLastD d = c := by
  rw [List.getLastD_eq_getLast?, List.getLast?_eq_getLast l hne]
  simpa using h _ (List.getLast_mem hne)

theorem add_keyword_success_inv (st st2 : AppState) (c k : String)
    (h : add_keyword_to_category st c k = some (st2, true)) :
    pyStrip k ≠ "" ∧ ∃ kws, st.categories.lookup c = some kws ∧ pyStrip k ∉ kws ∧
      st2 = { st with
              categories := updateAssoc st.categories c (kws ++ [pyStrip k])
              savedCategories := updateAssoc st.categories c (kws ++ [pyStrip k]) } := by
  by_cases h1 : pyStrip k = ""
  · simp [add_keyword_to_category, h1] at h
  · refine ⟨h1, ?_⟩
    match h2 : st.categories.lookup c with
    | none => simp [add_keyword_to_category, h1, h2] at h
    | some kws =>
      by_cases h3 : pyStrip k ∈ kws
      · simp [add_keyword_to_category, h1, h2, h3] at h
      · refine ⟨kws, rfl, h3, ?_⟩
        simp [add_keyword_to_category, h1, h2, h3] at h
        exact h.symm

/-- C5 (amended): if `addKeyword(c, k)` succeeds, `c` is not
`"Uncategorized"`, and no category other than `c` holds a keyword whose
normalization matches the fresh record's, then keyword-mode classification
of a record whose normalized `Details` equals the normalized stored
(trimmed) keyword assigns `c`. -/
theorem C5_added_keyword_classifies (st st2 : AppState) (c k : String) (r : Row)
    (h1 : add_keyword_to_category st c k = some (st2, true))
    (h2 : c ≠ "Uncategorized")
    (h3 : ∀ p ∈ st2.categories, lowerStrip r.Details ∈ p.2.map lowerStrip → p.1 = c)
    (h4 : lowerStrip r.Details = lowerStrip (pyStrip k)) :
    categorize_transactions st2.categories [r] =
      [{ toRow := r, Category := c }] := by
  obtain ⟨hk, kws, hlook, hnotmem, hst2⟩ := add_keyword_success_inv st st2 c k h1
  have hpair : (c, kws ++ [pyStrip k]) ∈ st2.categories := by
    rw [hst2]
    exact mem_updateAssoc _ _ _ _ (lookup_mem _ _ _ hlook)
  have hmatch : matchesPass r.Details (c, kws ++ [pyStrip k]) := by
    refine ⟨h2, by simp, ?_⟩
    rw [h4]
    exact List.mem_map_of_mem lowerStrip (by simp)
  have hmemc : c ∈ matchingCategories st2.categories r.Details := by
    unfold matchingCategories
    exact List.mem_map_of_mem Prod.fst (List.mem_filter.mpr ⟨hpair, by simpa using hmatch⟩)
  have hall : ∀ x ∈ matchingCategories st2.categories r.Details, x = c := by
    intro x hx
    unfold matchingCategories at hx
    obtain ⟨q, hq, rfl⟩ := List.mem_map.mp hx
    have hqf := List.mem_filter.mp hq
    have hq2 : matchesPass r.Details q := by simpa using hqf.2
    exact h3 q hqf.1 hq2.2.2
  have hkc : keywordCategory st2.categories r.Details = c := by
    unfold keywordCategory
    exact getLastD_of_all_eq _ c _ (List.ne_nil_of_mem hmemc) hall
  rw [categorize_transactions_eq]
  simp [hkc]

/-- C5 counterexample: with categories iterated in the order
`Uncategorized, A, B` where `B` already holds the keyword `"coffee"`,
`addKeyword("A", "coffee")` succeeds, yet a fresh record with `Details`
`"coffee"` is classified `"B"` (the later match wins), not `"A"`. -/
theorem C5_counterexample :
    add_keyword_to_category exStateB "A" "coffee" = some (exStateB2, true) ∧
    categorize_transactions exStateB2.categories [exRow "coffee"] =
      [{ toRow := exRow "coffee", Category := "B" }] :=
  ⟨by decide, by decide⟩

theorem C5_added_keyword_classifies_witness :
    categorize_transactions [("Uncategorized", []), ("Dining", ["coffee"])]
        [exRow " COFFEE "]
      = [{ toRow := exRow " COFFEE ", Category := "Dining" }] :=
  C5_added_keyword_classifies c8s1 exStateD2 "Dining" "coffee" (exRow " COFFEE ")
    (by decide) (by decide) (by decide) (by decide)

/-! ### Date normalization: C7 -/

/-- C7: the date column is normalized by attempting, in order, (a)
`%d/%m/%Y`, (b) `%d %b %Y`, (c) the general day-first parse, taking the
first interpretation that parses the entire column and failing when all
three fail; `"31/01/2024"` and `"31 Jan 2024"` denote the same calendar
date, and an all-`DD/MM/YYYY` column parses day-first. -/
theorem C7_date_normalization :
    (∀ fb col ds, col.mapM parseDMYSlash = some ds → parseDateColumn fb col = some ds) ∧
    (∀ fb col ds, col.mapM parseDMYSlash = none → col.mapM parseDMonY = some ds →
      parseDateColumn fb col = some ds) ∧
    (∀ fb col ds, col.mapM parseDMYSlash = none → col.mapM parseDMonY = none →
      col.mapM fb = some ds → parseDateColumn fb col = some ds) ∧
    (∀ fb col, col.mapM parseDMYSlash = none → col.mapM parseDMonY = none →
      col.mapM fb = none → parseDateColumn fb col = none) ∧
    parseDMYSlash "31/01/2024" = some ⟨2024, 1, 31⟩ ∧
    parseDMonY "31 Jan 2024" = some ⟨2024, 1, 31⟩ ∧
    (∀ fb, parseDateColumn fb ["03/04/2024", "25/12/2024"]
      = some [⟨2024, 4, 3⟩, ⟨2024, 12, 25⟩]) := by
  refine ⟨?_, ?_, ?_, ?_, by decide, by decide, ?_⟩
  · intro fb col ds h
    unfold parseDateColumn
    rw [h]
  · intro fb col ds ha hb
    unfold parseDateColumn
    rw [ha, hb]
  · intro fb col ds ha hb hc
    unfold parseDateColumn
    rw [ha, hb, hc]
  · intro fb col ha hb hc
    unfold parseDateColumn
    rw [ha, hb, hc]
  · intro fb
    unfold parseDateColumn
    rw [show ["03/04/2024", "25/12/2024"].mapM parseDMYSlash
        = some [⟨2024, 4, 3⟩, ⟨2024, 12, 25⟩] from by decide]

theorem C7_date_normalization_witness :
    parseDateColumn noFallback ["31 Jan 2024"] = some [⟨2024, 1, 31⟩] ∧
    parseDateColumn noFallback ["31/01/2024", "31 Jan 2024"] = none :=
  ⟨C7_date_normalization.2.1 noFallback ["31 Jan 2024"] [⟨2024, 1, 31⟩]
      (by decide) (by decide),
   C7_date_normalization.2.2.2.1 noFallback ["31/01/2024", "31 Jan 2024"]
      (by decide) (by decide) (by decide)⟩

/-! ### Ingestion failure: C9 -/

theorem colIndex?_eq_none (hs : List String) (name : String) (h : name ∉ hs) :
    colIndex? hs name = none := by
  induction hs with
  | nil => rfl
  | cons a rest ih =>
    have hne : a ≠ name := fun ha => h (by rw [ha]; exact List.mem_cons_self _ _)
    have hr : name ∉ rest := fun hrr => h (List.mem_cons_of_mem a hrr)
    show (if a = name then some 0 else (colIndex? rest name).map (· + 1)) = none
    rw [if_neg hne, ih hr]
    rfl

theorem col?_eq_none (t : RawTable) (name : String) (h : name ∉ t.headers) :
    t.col? name = none := by
  unfold RawTable.col?
  rw [colIndex?_eq_none t.headers name h]
  rfl

/-- C9 (amended): a malformed amount, a malformed date (all three parses
fail), and a missing `Amount` or `Date` column each abort the whole load
(`none`, no partial dataset), and a failed load leaves the session — prior
dataset and snapshot included — unchanged.  A missing `Details` column
aborts only in snapshot mode, or in keyword mode when some category has
keywords and the file has rows; `Debit/Credit` is not checked during
parsing. -/
theorem C9_parse_errors_abort :
    (∀ fb cats snap t, "Amount" ∉ t.headers.map pyStrip →
      load_transactions fb cats snap t = none) ∧
    (∀ fb cats snap t vs,
      (⟨t.headers.map pyStrip, t.rows⟩ : RawTable).col? "Amount" = some vs →
      vs.mapM (fun s => parseFloat (removeCommas s)) = none →
      load_transactions fb cats snap t = none) ∧
    (∀ fb cats snap t, "Date" ∉ t.headers.map pyStrip →
      load_transactions fb cats snap t = none) ∧
    (∀ fb cats snap t ds,
      (⟨t.headers.map pyStrip, t.rows⟩ : RawTable).col? "Date" = some ds →
      parseDateColumn fb ds = none →
      load_transactions fb cats snap t = none) ∧
    (∀ fb cats snap t, "Details" ∉ t.headers.map pyStrip →
      load_transactions fb cats (some snap) t = none) ∧
    (∀ fb cats t, "Details" ∉ t.headers.map pyStrip →
      hasActiveCategory cats = true → t.rows ≠ [] →
      load_transactions fb cats none t = none) ∧
    (∀ fb st t,
      load_transactions fb st.categories st.categorized_transactions t = none →
      uploadStep fb st t = st) := by
  refine ⟨?_, ?_, ?_, ?_, ?_, ?_, ?_⟩
  · intro fb cats snap t h
    have hA := col?_eq_none ⟨t.headers.map pyStrip, t.rows⟩ "Amount" h
    simp only [load_transactions, hA]
  · intro fb cats snap t vs hcol hmap
    simp only [load_transactions, hcol, hmap]
  · intro fb cats snap t h
    have hDate := col?_eq_none ⟨t.headers.map pyStrip, t.rows⟩ "Date" h
    rcases hA : (⟨t.headers.map pyStrip, t.rows⟩ : RawTable).col? "Amount" with _ | vs
    · simp only [load_transactions, hA]
    · rcases hM : vs.mapM (fun s => parseFloat (removeCommas s)) with _ | amounts
      · simp only [load_transactions, hA, hM]
      · simp only [load_transactions, hA, hM, hDate]
  · intro fb cats snap t ds hcol hdates
    rcases hA : (⟨t.headers.map pyStrip, t.rows⟩ : RawTable).col? "Amount" with _ | vs
    · simp only [load_transactions, hA]
    · rcases hM : vs.mapM (fun s => parseFloat (removeCommas s)) with _ | amounts
      · simp only [load_transactions, hA, hM]
      · simp only [load_transactions, hA, hM, hcol, hdates]
  · intro fb cats snap t h
    have hDet := col?_eq_none ⟨t.headers.map pyStrip, t.rows⟩ "Details" h
    rcases hA : (⟨t.headers.map pyStrip, t.rows⟩ : RawTable).col? "Amount" with _ | vs
    · simp only [load_transactions, hA]
    · rcases hM : vs.mapM (fun s => parseFloat (removeCommas s)) with _ | amounts
      · simp only [load_transactions, hA, hM]
      · rcases hD : (⟨t.headers.map pyStrip, t.rows⟩ : RawTable).col? "Date" with _ | ds
        · simp only [load_transactions, hA, hM, hD]
        · rcases hP : parseDateColumn fb ds with _ | dates
          · simp only [load_transactions, hA, hM, hD, hP]
          · simp [load_transactions, hA, hM, hD, hP, hDet]
            cases List.mapM.loop (fun s => parseFloat (removeCommas s)) vs [] with
            | none => rfl
            | some amounts2 => rfl
  · intro fb cats t h hact hrows
    have hDet := col?_eq_none ⟨t.headers.map pyStrip, t.rows⟩ "Details" h
    have hre : t.rows.isEmpty = false := by
      cases hrows2 : t.rows with
      | nil => exact absurd hrows2 hrows
      | cons a l => rfl
    rcases hA : (⟨t.headers.map pyStrip, t.rows⟩ : RawTable).col? "Amount" with _ | vs
    · simp only [load_transactions, hA]
    · rcases hM : vs.mapM (fun s => parseFloat (removeCommas s)) with _ | amounts
      · simp only [load_transactions, hA, hM]
      · rcases hD : (⟨t.headers.map pyStrip, t.rows⟩ : RawTable).col? "Date" with _ | ds
        · simp only [load_transactions, hA, hM, hD]
        · rcases hP : parseDateColumn fb ds with _ | dates
          · simp only [load_transactions, hA, hM, hD, hP]
          · simp [load_transactions, hA, hM, hD, hP, hDet, hact, hre]
            cases List.mapM.loop (fun s => parseFloat (removeCommas s)) vs [] with
            | none => rfl
            | some amounts2 => rfl
  · intro fb st t h
    unfold uploadStep
    rw [h]

/-- C9 counterexample: a file with no `Details` column ingests successfully
when no snapshot exists and no category has keywords: the load returns a
dataset and the upload flow stores it, instead of aborting with an error. -/
theorem C9_counterexample :
    (load_transactions noFallback initState.categories none exTableNoDetails).isSome = true ∧
    (uploadStep noFallback initState exTableNoDetails).debits_df ≠ [] :=
  ⟨by decide, by decide⟩

theorem C9_parse_errors_abort_witness :
    load_transactions noFallback [] none (⟨[], []⟩ : RawTable) = none :=
  C9_parse_errors_abort.1 noFallback [] none ⟨[], []⟩ (by decide)

/-! ### The Uncategorized invariant: C8 -/

theorem updateAssoc_keys (m : Store) (k : String) (v : List String) :
    (updateAssoc m k v).map Prod.fst = m.map Prod.fst := by
  unfold updateAssoc
  rw [List.map_map]
  apply List.map_congr_left
  intro p _
  by_cases h : p.1 = k
  · simp [Function.comp, h]
  · simp [Function.comp, h]

theorem add_keyword_pres_inv (st st2 : AppState) (c k : String) (b : Bool)
    (h : add_keyword_to_category st c k = some (st2, b))
    (hi : storeInvariant st) : storeInvariant st2 := by
  by_cases h1 : pyStrip k = ""
  · simp [add_keyword_to_category, h1] at h
    rw [← h.1]
    exact hi
  · match h2 : st.categories.lookup c with
    | none => simp [add_keyword_to_category, h1, h2] at h
    | some kws =>
      by_cases h3 : pyStrip k ∈ kws
      · simp [add_keyword_to_category, h1, h2, h3] at h
        rw [← h.1]
        exact hi
      · simp [add_keyword_to_category, h1, h2, h3] at h
        rw [← h.1]
        constructor
        · show "Uncategorized" ∈ (updateAssoc st.categories c (kws ++ [pyStrip k])).map Prod.fst
          rw [updateAssoc_keys]
          exact hi.1
        · show "Uncategorized" ∈ (updateAssoc st.categories c (kws ++ [pyStrip k])).map Prod.fst
          rw [updateAssoc_keys]
          exact hi.1

theorem uploadStep_store (fb : String → Option CalDate) (st : AppState) (t : RawTable) :
    (uploadStep fb st t).categories = st.categories ∧
    (uploadStep fb st t).savedCategories = st.savedCategories := by
  unfold uploadStep
  cases load_transactions fb st.categories st.categorized_transactions t with
  | none => exact ⟨rfl, rfl⟩
  | some df =>
    simp only []
    by_cases h : "Debit/Credit" ∈ t.headers.map pyStrip
    · rw [if_pos h]
      exact ⟨rfl, rfl⟩
    · rw [if_neg h]
      exact ⟨rfl, rfl⟩

theorem applyOneEdit_pres (st : AppState) (idx : Nat) (row : Txn) (newCat : String)
    (h : storeInvariant st) : storeInvariant (applyOneEdit st idx row newCat).1 := by
  unfold applyOneEdit
  by_cases hne : newCat ≠ ((st.debits_df[idx]?).map Txn.Category).getD ""
  · rw [if_pos hne]
    have h1 : storeInvariant (setTxnCategory st idx newCat) := h
    cases hadd : add_keyword_to_category (setTxnCategory st idx newCat) newCat row.Details with
    | none => exact h1
    | some q =>
      obtain ⟨st2, b2⟩ := q
      exact add_keyword_pres_inv (setTxnCategory st idx newCat) st2 newCat row.Details b2 hadd h1
  · rw [if_neg hne]
    exact h

theorem foldl_applyChangesStep_pres (l : List (Nat × (Txn × String)))
    (acc : AppState × Bool) (h : storeInvariant acc.1) :
    storeInvariant ((l.foldl applyChangesStep acc).1) := by
  induction l generalizing acc with
  | nil => exact h
  | cons p rest ih =>
    rw [List.foldl_cons]
    apply ih
    obtain ⟨st, b⟩ := acc
    cases b with
    | false => exact h
    | true => exact applyOneEdit_pres st p.1 p.2.1 p.2.2 h

theorem applyChanges_pres (st : AppState) (edited : List String)
    (h : storeInvariant st) : storeInvariant (applyChanges st edited) := by
  unfold applyChanges
  have hf := foldl_applyChangesStep_pres ((st.debits_df.zip edited).enum) (st, true) h
  cases hres : ((st.debits_df.zip edited).enum).foldl applyChangesStep (st, true) with
  | mk st2 b =>
    rw [hres] at hf
    cases b with
    | true => exact ⟨hf.1, hf.1⟩
    | false => exact hf

theorem createCategory_pres (st : AppState) (name : String)
    (h : storeInvariant st) : storeInvariant (createCategory st name).1 := by
  unfold createCategory
  by_cases h0 : name ≠ ""
  · rw [if_pos h0]
    by_cases h1 : name ∉ st.categories.map Prod.fst
    · rw [if_pos h1]
      exact ⟨by rw [List.map_append]; exact List.mem_append_left _ h.1,
             by rw [List.map_append]; exact List.mem_append_left _ h.1⟩
    · rw [if_neg h1]
      exact h
  · rw [if_neg h0]
    exact h

theorem matchingCategories_updateAssoc_uncat (cats : Store) (kws : List String)
    (d : String) :
    matchingCategories (updateAssoc cats "Uncategorized" kws) d
      = matchingCategories cats d := by
  induction cats with
  | nil => rfl
  | cons p rest ih =>
    obtain ⟨k1, v1⟩ := p
    show matchingCategories
        ((if k1 = "Uncategorized" then ("Uncategorized", kws) else (k1, v1))
          :: updateAssoc rest "Uncategorized" kws) d
      = matchingCategories ((k1, v1) :: rest) d
    by_cases hU : k1 = "Uncategorized"
    · rw [if_pos hU]
      rw [matchingCategories_cons_neg _ _ _ (fun hm => hm.1 rfl), ih,
        matchingCategories_cons_neg _ _ _ (fun hm => hm.1 hU)]
    · rw [if_neg hU]
      by_cases hm : matchesPass d (k1, v1)
      · rw [matchingCategories_cons_pos _ _ _ hm, matchingCategories_cons_pos _ _ _ hm, ih]
      · rw [matchingCategories_cons_neg _ _ _ hm, matchingCategories_cons_neg _ _ _ hm, ih]

/-- C8 (amended): in every reachable session state, `"Uncategorized"` is a
key of the live category mapping and of the persisted one, and the keyword
matching skips `"Uncategorized"` entirely (its keyword list never affects
classification).  However, the correction-learning flow CAN append keywords
to `"Uncategorized"` when a user recategorizes a record to it (see the
counterexample). -/
theorem C8_invariant (st : AppState) (h : Reach st) :
    storeInvariant st ∧
    (∀ cats kws df, categorize_transactions (updateAssoc cats "Uncategorized" kws) df
      = categorize_transactions cats df) := by
  refine ⟨?_, ?_⟩
  · induction h with
    | start => exact ⟨by decide, by decide⟩
    | create st name hr ih => exact createCategory_pres st name ih
    | addkw st st2 c k b hr heq ih => exact add_keyword_pres_inv st st2 c k b heq ih
    | upload st fb t hr ih =>
      exact ⟨by rw [(uploadStep_store fb st t).1]; exact ih.1,
             by rw [(uploadStep_store fb st t).2]; exact ih.2⟩
    | edits st edited hr ih => exact applyChanges_pres st edited ih
    | reload st hr ih => exact ⟨ih.2, ih.2⟩
  · intro cats kws df
    rw [categorize_transactions_eq, categorize_transactions_eq]
    apply List.map_congr_left
    intro r _
    have hm := matchingCategories_updateAssoc_uncat cats kws r.Details
    unfold keywordCategory
    rw [hm]

/-- C8 counterexample: a reachable state in which the learning flow has
appended the record's `Details` to `"Uncategorized"`: create `"Dining"`,
upload one row, recategorize it to `"Dining"`, then recategorize it back to
`"Uncategorized"` — the last step calls
`add_keyword_to_category("Uncategorized", "COFFEE SHOP")`, which succeeds. -/
theorem C8_counterexample :
    Reach c8s4 ∧ c8s4.categories.lookup "Uncategorized" = some ["COFFEE SHOP"] :=
  ⟨Reach.edits c8s3 ["Uncategorized"]
      (Reach.edits c8s2 ["Dining"]
        (Reach.upload c8s1 noFallback exTable
          (Reach.create initState "Dining" Reach.start))),
   by decide⟩

theorem C8_invariant_witness : storeInvariant initState :=
  (C8_invariant initState Reach.start).1

end FinanceApp
